import Mathlib

/-!
Verification development for the Canvas Elements Generator front end.

The definitions below are a shallow embedding of the repository's core:
- `withRetryGo` / `withRetry` embed `withRetry` from `services/geminiService.ts`
  (lines 53-72), with the successive outcomes of the wrapped operation and the
  random jitter passed in as explicit oracles;
- `generatePromptVariations` embeds the parse/fallback logic of
  `generatePromptVariations` (lines 117-125), with the parse outcome of the
  AI text call passed in as an explicit `ParseResult`;
- `stripPixel` / `removeWhiteBackground` embed `removeWhiteBackground`
  (lines 11-48), with the browser's image decode and PNG encode passed in as
  explicit oracles;
- `runItemsAux` / `handleGenerate` / `runGeneration` embed the batch loop of
  `handleGenerate` in the application component (batch size 1), including the
  React `assets` state update (which prepends new successes), the progress
  update, the 429 abort path, and the outer error classification.
-/

namespace CanvasGen

/-- `leadsWith pat cs` holds when `pat` is an initial segment of `cs`
(character comparison, as in JavaScript string search). -/
def leadsWith : List Char → List Char → Bool
  | [], _ => true
  | _ :: _, [] => false
  | c :: cs, d :: ds => c == d && leadsWith cs ds

/-- `charsContain pat cs`: does `pat` occur contiguously somewhere in `cs`?
Mirrors JavaScript `String.prototype.includes`. -/
def charsContain (pat : List Char) : List Char → Bool
  | [] => pat.isEmpty
  | c :: rest => leadsWith pat (c :: rest) || charsContain pat rest

/-- Embedding of JavaScript `s.includes(pat)`. -/
def includesSubstr (s pat : String) : Bool :=
  charsContain pat.data s.data

/-- An error thrown by the AI service client: a message string plus an
optional `status` field (JS errors carry `error.status`). -/
structure ApiError where
  message : String
  status : Option String
deriving DecidableEq

/-- `error?.message?.includes('429') || error?.status === 'RESOURCE_EXHAUSTED'`
(geminiService.ts line 59). -/
def isRateLimit (e : ApiError) : Bool :=
  includesSubstr e.message "429" || e.status == some "RESOURCE_EXHAUSTED"

/-- `error?.message?.includes('500') || error?.message?.includes('Rpc failed')`
(geminiService.ts line 60). -/
def isServerError (e : ApiError) : Bool :=
  includesSubstr e.message "500" || includesSubstr e.message "Rpc failed"

/-- The batch loop's abort test `err?.message?.includes('429')`
(application component, line 44). Note: unlike `isRateLimit`, it does not
look at `status`. -/
def includes429 (e : ApiError) : Bool := includesSubstr e.message "429"

/-- Loop body of `withRetry` (geminiService.ts lines 53-72).
`fn k` is the outcome of the `k`-th invocation of the wrapped operation,
`jitter k` the value of `Math.random() * 1000` drawn after the `k`-th failed
invocation. Arguments: remaining loop iterations (`maxRetries - i`), number
of invocations made so far, current `delay`. Returns the final outcome, the
total number of invocations and the list of waits performed. The fuel-zero
case is the trailing `return fn()` after the loop. -/
def withRetryGo {α : Type} (fn : Nat → Except ApiError α) (jitter : Nat → Nat) :
    Nat → Nat → Nat → Except ApiError α × Nat × List Nat
  | 0, calls, _ => (fn calls, calls + 1, [])
  | fuel + 1, calls, delay =>
    match fn calls with
    | .ok v => (.ok v, calls + 1, [])
    | .error e =>
      if (isRateLimit e || isServerError e) && fuel != 0 then
        let r := withRetryGo fn jitter fuel (calls + 1) (delay * 2 + jitter calls)
        (r.1, r.2.1, delay :: r.2.2)
      else (.error e, calls + 1, [])

/-- `withRetry(fn, maxRetries, initialDelay)`: result, invocation count and
performed waits. The source defaults are `maxRetries = 5`,
`initialDelay = 4000`. -/
def withRetry {α : Type} (fn : Nat → Except ApiError α) (jitter : Nat → Nat)
    (maxRetries initialDelay : Nat) : Except ApiError α × Nat × List Nat :=
  withRetryGo fn jitter maxRetries 0 initialDelay

/-- The ideal backoff sequence: `delaySeq jitter base start k` is the delay
in force before the `(start + k)`-th retry, beginning at `base` and following
`delay = delay * 2 + jitter` (geminiService.ts line 65). -/
def delaySeq (jitter : Nat → Nat) (base start : Nat) : Nat → Nat
  | 0 => base
  | k + 1 => 2 * delaySeq jitter base start k + jitter (start + k)

/-- The `AssetType` enumeration from `types.ts`. -/
inductive AssetType where
  | STICKER
  | PNG_ELEMENT
  | GRAPHIC
  | SHAPE_3D
  | MOCKUP
  | PHOTO
  | STAMP
  | GIF
deriving DecidableEq

/-- Outcome of `JSON.parse(response.text || "[]")` inside
`generatePromptVariations`: either a parsed string array, or a parse error. -/
inductive ParseResult where
  | ok (variations : List String)
  | err
deriving DecidableEq

/-- Parse/fallback logic of `generatePromptVariations`
(geminiService.ts lines 117-125), given the parse outcome of a successful
AI text call: a parsed non-empty array is returned as is; a parsed empty
array falls back to `[basePrompt]`; a parse error falls back to
`Array(count).fill(basePrompt)`. -/
def generatePromptVariations (basePrompt : String) (t : AssetType) (count : Nat)
    (parsed : ParseResult) : List String :=
  match t with
  | _ =>
    match parsed with
    | .ok variations => if variations.length > 0 then variations else [basePrompt]
    | .err => List.replicate count basePrompt

/-- One generated asset as accumulated by the batch loop: the data URL
returned by `generateSingleAsset` and the variation prompt that produced it
(the `url` and `prompt` fields of `GeneratedAsset` in `types.ts`). -/
structure GeneratedAsset where
  url : String
  prompt : String
deriving DecidableEq

/-- `Math.min(100, Math.round(((i + currentBatch.length) / variations.length) * 100))`
for `k` items processed out of `n` (application component, line 57):
round-half-up of `100 * k / n`, clamped to 100. -/
def progressAfter (k n : Nat) : Nat := min 100 ((200 * k + n) / (2 * n))

/-- Output of the batch loop: successful assets in arrival order (`newAssets`),
the successive progress values set, the `(index, prompt)` pairs for which a
fetch was attempted, and the error that aborted the loop, if any. -/
structure LoopOut where
  assets : List GeneratedAsset
  trace : List Nat
  attempted : List (Nat × String)
  aborted : Option ApiError
deriving DecidableEq

/-- The batch loop of `handleGenerate` (application component, lines 27-68)
with `batchSize = 1`. `fetch i p` is the outcome of
`generateSingleAsset(p, type)` for the item at index `i`; `n` is
`variations.length`; the list argument is the remaining variations and `i`
the index of its head. On a successful fetch the asset is recorded and the
progress advanced; on a failure whose message contains `'429'` the loop
rethrows and stops; any other failure is skipped (the map callback returns
`null`) and the progress still advances. -/
def runItemsAux (fetch : Nat → String → Except ApiError String) (n : Nat) :
    List String → Nat → LoopOut
  | [], _ => ⟨[], [], [], none⟩
  | p :: rest, i =>
    match fetch i p with
    | .ok url =>
      let out := runItemsAux fetch n rest (i + 1)
      ⟨⟨url, p⟩ :: out.assets, progressAfter (i + 1) n :: out.trace,
        (i, p) :: out.attempted, out.aborted⟩
    | .error e =>
      if includes429 e then ⟨[], [], [(i, p)], some e⟩
      else
        let out := runItemsAux fetch n rest (i + 1)
        ⟨out.assets, progressAfter (i + 1) n :: out.trace,
          (i, p) :: out.attempted, out.aborted⟩

/-- The rate-limit message set by the outer catch (line 81). -/
def rateLimitMsg : String :=
  "Rate limit exceeded. The API is temporarily blocking requests. Please wait 1-2 minutes before trying again."

/-- The authentication message set by the outer catch (line 76). -/
def authMsg : String := "API Authentication Error. Re-selecting your API key might help."

/-- The generic fallback message of the outer catch (line 83). -/
def genericMsg : String := "Failed to forge elements. Please try again."

/-- The empty-run error thrown when no asset was produced (line 71). -/
def emptyRunMsg : String :=
  "Could not forge any elements. Service might be busy. Try again in a few moments."

/-- The outer catch of `handleGenerate` (lines 73-84): authentication check
first, then the rate-limit check (`message` contains `'429'` or `status` is
`RESOURCE_EXHAUSTED`), then `err.message || genericMsg`. -/
def errorMessage (e : ApiError) : String :=
  if includesSubstr e.message "Requested entity was not found" then authMsg
  else if includesSubstr e.message "429" || e.status == some "RESOURCE_EXHAUSTED" then
    rateLimitMsg
  else if e.message = "" then genericMsg
  else e.message

/-- Observable outcome of one run of `handleGenerate` after the variation
expansion: the React `assets` state (each batch's successes are prepended:
`setAssets((prev) => [...successful, ...prev])`, line 56, starting from an
empty gallery), the run-local accumulator `newAssets` (line 55, arrival
order), the successive mid-run progress values, the full progress event
sequence including the reset to 0 at run start (line 16) and in `finally`
(line 87), the attempted fetches, and the user-visible error. -/
structure RunResult where
  visibleAssets : List GeneratedAsset
  newAssets : List GeneratedAsset
  progressTrace : List Nat
  progressEvents : List Nat
  attempted : List (Nat × String)
  error : Option String
deriving DecidableEq

/-- The part of `handleGenerate` following the variation expansion
(application component, lines 23-88): run the batch loop over `variations`;
if it rethrew an error, classify it through the outer catch; otherwise, if
zero assets were produced, throw the empty-run error (line 70-71), which the
outer catch turns into its own message. -/
def handleGenerate (fetch : Nat → String → Except ApiError String)
    (variations : List String) : RunResult :=
  let n := variations.length
  let out := runItemsAux fetch n variations 0
  { visibleAssets := out.assets.reverse
    newAssets := out.assets
    progressTrace := out.trace
    progressEvents := 0 :: out.trace ++ [0]
    attempted := out.attempted
    error :=
      match out.aborted with
      | some e => some (errorMessage e)
      | none =>
        if out.assets.length = 0 then some (errorMessage ⟨emptyRunMsg, none⟩)
        else none }

/-- Full run: `handleGenerate` first calls
`generatePromptVariations(basePrompt, type, 20)` (line 21) and then drives
the batch loop over the result. -/
def runGeneration (fetch : Nat → String → Except ApiError String)
    (basePrompt : String) (t : AssetType) (parsed : ParseResult) : RunResult :=
  handleGenerate fetch (generatePromptVariations basePrompt t 20 parsed)

/-- The successes of a run in index order: for each variation whose fetch
succeeds, the asset built from the returned URL and that variation. -/
def successAssets (fetch : Nat → String → Except ApiError String) :
    List String → Nat → List GeneratedAsset
  | [], _ => []
  | p :: rest, i =>
    match fetch i p with
    | .ok url => ⟨url, p⟩ :: successAssets fetch rest (i + 1)
    | .error _ => successAssets fetch rest (i + 1)

/-- All `(index, prompt)` pairs of a variation list, in order. -/
def attemptedAll : List String → Nat → List (Nat × String)
  | [], _ => []
  | p :: rest, i => (i, p) :: attemptedAll rest (i + 1)

/-- `true` unless the outcome is an error whose message contains `'429'`
(the only outcome that makes the batch loop abort). -/
def notAbortErr : Except ApiError String → Bool
  | .ok _ => true
  | .error e => !includes429 e

/-- One RGBA pixel of the decoded image (0-255 channels). -/
structure Pixel where
  r : Nat
  g : Nat
  b : Nat
  a : Nat
deriving DecidableEq

/-- The near-white threshold of `removeWhiteBackground`
(geminiService.ts line 30). -/
def threshold : Nat := 245

/-- The per-pixel body of the loop in `removeWhiteBackground` (lines 32-41):
if red, green and blue are all at or above the threshold, the alpha channel
is set to 0; otherwise the pixel is untouched. -/
def stripPixel (p : Pixel) : Pixel :=
  if threshold ≤ p.r ∧ threshold ≤ p.g ∧ threshold ≤ p.b then
    { p with a := 0 }
  else p

/-- Outcome of drawing the input data URL onto a canvas and reading the
pixel buffer back: either the decoded pixels, or a decode failure
(`img.onerror`, line 46; the unavailable-context branch at line 21 behaves
the same way). -/
inductive DecodeResult where
  | decoded (pixels : List Pixel)
  | failed
deriving DecidableEq

/-- `removeWhiteBackground` (geminiService.ts lines 11-48): decode the data
URL; on success map the near-white keying over every pixel and re-encode as
PNG (`canvas.toDataURL('image/png')`, an oracle here); on decode failure
resolve with the original data URL unchanged. -/
def removeWhiteBackground (dataUrl : String) (decode : String → DecodeResult)
    (encodePng : List Pixel → String) : String :=
  match decode dataUrl with
  | .decoded pixels => encodePng (pixels.map stripPixel)
  | .failed => dataUrl

/-! Concrete scenarios used to instantiate the theorems below. -/

/-- A fetch oracle that always succeeds with the data URL `"u"`. -/
def fetchOk : Nat → String → Except ApiError String := fun _ _ => .ok "u"

/-- A resource-exhausted error whose message does not mention 429. -/
def errRE : ApiError := ⟨"quota", some "RESOURCE_EXHAUSTED"⟩

/-- First fetch fails with `errRE`, all later fetches succeed. -/
def fetchRE : Nat → String → Except ApiError String :=
  fun i _ => if i = 0 then .error errRE else .ok "u"

/-- A generic failure, neither rate-limit nor server error. -/
def errBoom : ApiError := ⟨"boom", none⟩

/-- First fetch fails with `errBoom`, all later fetches succeed. -/
def fetchSkip0 : Nat → String → Except ApiError String :=
  fun i _ => if i = 0 then .error errBoom else .ok "u"

/-- An error whose message contains `429`. -/
def err429 : ApiError := ⟨"429", none⟩

/-- First fetch fails with `err429`, all later fetches succeed. -/
def fetch429at0 : Nat → String → Except ApiError String :=
  fun i _ => if i = 0 then .error err429 else .ok "u"

/-- Second fetch (index 1) fails with `err429`, other fetches succeed. -/
def fetch429at1 : Nat → String → Except ApiError String :=
  fun i _ => if i = 1 then .error err429 else .ok "u"

/-- A wrapped operation that always fails with `errBoom`. -/
def fnBoomW : Nat → Except ApiError Nat := fun _ => .error errBoom

/-- A wrapped operation that always fails with `err429`. -/
def fn429W : Nat → Except ApiError Nat := fun _ => .error err429

/-- Zero jitter. -/
def jitter0W : Nat → Nat := fun _ => 0

/-! Lemmas about the retry wrapper. -/

theorem wrGo_zero {α : Type} (fn : Nat → Except ApiError α) (jitter : Nat → Nat)
    (calls delay : Nat) :
    withRetryGo fn jitter 0 calls delay = (fn calls, calls + 1, []) := rfl

theorem wrGo_ok {α : Type} (fn : Nat → Except ApiError α) (jitter : Nat → Nat)
    (f calls delay : Nat) (v : α) (hf : fn calls = .ok v) :
    withRetryGo fn jitter (f + 1) calls delay = (.ok v, calls + 1, []) := by
  simp [withRetryGo, hf]

theorem wrGo_err_retry {α : Type} (fn : Nat → Except ApiError α) (jitter : Nat → Nat)
    (f calls delay : Nat) (e : ApiError) (hf : fn calls = .error e)
    (hb : ((isRateLimit e || isServerError e) && (f != 0)) = true) :
    withRetryGo fn jitter (f + 1) calls delay =
      ((withRetryGo fn jitter f (calls + 1) (delay * 2 + jitter calls)).1,
       (withRetryGo fn jitter f (calls + 1) (delay * 2 + jitter calls)).2.1,
       delay :: (withRetryGo fn jitter f (calls + 1) (delay * 2 + jitter calls)).2.2) := by
  simp [withRetryGo, hf, hb]

theorem wrGo_err_stop {α : Type} (fn : Nat → Except ApiError α) (jitter : Nat → Nat)
    (f calls delay : Nat) (e : ApiError) (hf : fn calls = .error e)
    (hb : ((isRateLimit e || isServerError e) && (f != 0)) = false) :
    withRetryGo fn jitter (f + 1) calls delay = (.error e, calls + 1, []) := by
  simp [withRetryGo, hf, hb]

theorem wrGo_calls_le {α : Type} (fn : Nat → Except ApiError α) (jitter : Nat → Nat) :
    ∀ fuel calls delay, 1 ≤ fuel →
      (withRetryGo fn jitter fuel calls delay).2.1 ≤ calls + fuel := by
  intro fuel
  induction fuel with
  | zero => intro calls delay h; exact absurd h (by omega)
  | succ f ih =>
    intro calls delay _
    cases hf : fn calls with
    | ok v =>
      rw [wrGo_ok fn jitter f calls delay v hf]
      show calls + 1 ≤ calls + (f + 1)
      omega
    | error e =>
      cases hb : (isRateLimit e || isServerError e) && (f != 0) with
      | false =>
        rw [wrGo_err_stop fn jitter f calls delay e hf hb]
        show calls + 1 ≤ calls + (f + 1)
        omega
      | true =>
        have hf1 : 1 ≤ f := by
          rcases (Bool.and_eq_true _ _).mp hb with ⟨-, h2⟩
          have : f ≠ 0 := by simpa using h2
          omega
        have hrec := ih (calls + 1) (delay * 2 + jitter calls) hf1
        rw [wrGo_err_retry fn jitter f calls delay e hf hb]
        show (withRetryGo fn jitter f (calls + 1) (delay * 2 + jitter calls)).2.1 ≤
          calls + (f + 1)
        omega

theorem wrGo_retry_reason {α : Type} (fn : Nat → Except ApiError α) (jitter : Nat → Nat) :
    ∀ fuel calls delay k, calls ≤ k →
      k + 1 < (withRetryGo fn jitter fuel calls delay).2.1 →
      ∃ e, fn k = .error e ∧ (isRateLimit e || isServerError e) = true := by
  intro fuel
  induction fuel with
  | zero =>
    intro calls delay k hck hlt
    rw [wrGo_zero] at hlt
    have hlt2 : k + 1 < calls + 1 := hlt
    exact absurd hlt2 (by omega)
  | succ f ih =>
    intro calls delay k hck hlt
    cases hf : fn calls with
    | ok v =>
      rw [wrGo_ok fn jitter f calls delay v hf] at hlt
      have hlt2 : k + 1 < calls + 1 := hlt
      exact absurd hlt2 (by omega)
    | error e =>
      cases hb : (isRateLimit e || isServerError e) && (f != 0) with
      | false =>
        rw [wrGo_err_stop fn jitter f calls delay e hf hb] at hlt
        have hlt2 : k + 1 < calls + 1 := hlt
        exact absurd hlt2 (by omega)
      | true =>
        rcases (Bool.and_eq_true _ _).mp hb with ⟨hr, -⟩
        rw [wrGo_err_retry fn jitter f calls delay e hf hb] at hlt
        have hlt3 : k + 1 <
            (withRetryGo fn jitter f (calls + 1) (delay * 2 + jitter calls)).2.1 := hlt
        rcases Nat.lt_or_ge calls k with hlt2 | hge
        · exact ih (calls + 1) (delay * 2 + jitter calls) k (by omega) hlt3
        · have hek : calls = k := le_antisymm hck hge
          exact ⟨e, by rw [← hek]; exact hf, hr⟩

theorem wrGo_exhaust {α : Type} (fn : Nat → Except ApiError α) (jitter : Nat → Nat) :
    ∀ fuel calls delay, 1 ≤ fuel →
      (∀ k, calls ≤ k → k < calls + fuel →
        ∃ e, fn k = .error e ∧ (isRateLimit e || isServerError e) = true) →
      (withRetryGo fn jitter fuel calls delay).1 = fn (calls + fuel - 1) ∧
      (withRetryGo fn jitter fuel calls delay).2.1 = calls + fuel := by
  intro fuel
  induction fuel with
  | zero => intro calls delay h; exact absurd h (by omega)
  | succ f ih =>
    intro calls delay _ hall
    obtain ⟨e, hf, hr⟩ := hall calls (le_refl _) (by omega)
    cases f with
    | zero =>
      have hb : ((isRateLimit e || isServerError e) && ((0 : Nat) != 0)) = false := by simp
      rw [wrGo_err_stop fn jitter 0 calls delay e hf hb]
      constructor
      · show Except.error e = fn (calls + 1 - 1)
        rw [Nat.add_sub_cancel, hf]
      · rfl
    | succ f2 =>
      have hb : ((isRateLimit e || isServerError e) && ((f2 + 1 : Nat) != 0)) = true := by
        simp [hr]
      have ihh := ih (calls + 1) (delay * 2 + jitter calls) (by omega)
        (fun k hk1 hk2 => hall k (by omega) (by omega))
      rw [wrGo_err_retry fn jitter (f2 + 1) calls delay e hf hb]
      constructor
      · have h1 : calls + 1 + (f2 + 1) - 1 = calls + (f2 + 1 + 1) - 1 := by omega
        show (withRetryGo fn jitter (f2 + 1) (calls + 1) (delay * 2 + jitter calls)).1 =
          fn (calls + (f2 + 1 + 1) - 1)
        rw [ihh.1, h1]
      · have h2 := ihh.2
        show (withRetryGo fn jitter (f2 + 1) (calls + 1) (delay * 2 + jitter calls)).2.1 =
          calls + (f2 + 1 + 1)
        omega

theorem delaySeq_shift (jitter : Nat → Nat) :
    ∀ k base start, delaySeq jitter (base * 2 + jitter start) (start + 1) k =
      delaySeq jitter base start (k + 1) := by
  intro k
  induction k with
  | zero =>
    intro base start
    simp [delaySeq]
    omega
  | succ n ihn =>
    intro base start
    simp only [delaySeq]
    rw [ihn]
    have h1 : start + 1 + n = start + (n + 1) := by omega
    rw [h1]
    simp [delaySeq]

theorem wrGo_waits {α : Type} (fn : Nat → Except ApiError α) (jitter : Nat → Nat) :
    ∀ fuel calls delay k, k < (withRetryGo fn jitter fuel calls delay).2.2.length →
      (withRetryGo fn jitter fuel calls delay).2.2.get? k =
        some (delaySeq jitter delay calls k) := by
  intro fuel
  induction fuel with
  | zero =>
    intro calls delay k h
    rw [wrGo_zero] at h
    simp at h
  | succ f ih =>
    intro calls delay k h
    cases hf : fn calls with
    | ok v =>
      rw [wrGo_ok fn jitter f calls delay v hf] at h
      simp at h
    | error e =>
      cases hb : (isRateLimit e || isServerError e) && (f != 0) with
      | false =>
        rw [wrGo_err_stop fn jitter f calls delay e hf hb] at h
        simp at h
      | true =>
        rw [wrGo_err_retry fn jitter f calls delay e hf hb] at h ⊢
        cases k with
        | zero => simp [delaySeq]
        | succ k2 =>
          simp only [List.length_cons] at h
          have hrec := ih (calls + 1) (delay * 2 + jitter calls) k2 (by simpa using h)
          simp only [List.get?_cons_succ]
          rw [hrec, delaySeq_shift]

/-! Lemmas about the batch loop. -/

theorem riNil (fetch : Nat → String → Except ApiError String) (n i : Nat) :
    runItemsAux fetch n [] i = ⟨[], [], [], none⟩ := rfl

theorem riOk (fetch : Nat → String → Except ApiError String) (n : Nat) (p : String)
    (rest : List String) (i : Nat) (url : String) (hf : fetch i p = .ok url) :
    runItemsAux fetch n (p :: rest) i =
      ⟨⟨url, p⟩ :: (runItemsAux fetch n rest (i + 1)).assets,
        progressAfter (i + 1) n :: (runItemsAux fetch n rest (i + 1)).trace,
        (i, p) :: (runItemsAux fetch n rest (i + 1)).attempted,
        (runItemsAux fetch n rest (i + 1)).aborted⟩ := by
  simp [runItemsAux, hf]

theorem riErr429 (fetch : Nat → String → Except ApiError String) (n : Nat) (p : String)
    (rest : List String) (i : Nat) (e : ApiError) (hf : fetch i p = .error e)
    (h429 : includes429 e = true) :
    runItemsAux fetch n (p :: rest) i = ⟨[], [], [(i, p)], some e⟩ := by
  simp [runItemsAux, hf, h429]

theorem riErrSkip (fetch : Nat → String → Except ApiError String) (n : Nat) (p : String)
    (rest : List String) (i : Nat) (e : ApiError) (hf : fetch i p = .error e)
    (h429 : includes429 e = false) :
    runItemsAux fetch n (p :: rest) i =
      ⟨(runItemsAux fetch n rest (i + 1)).assets,
        progressAfter (i + 1) n :: (runItemsAux fetch n rest (i + 1)).trace,
        (i, p) :: (runItemsAux fetch n rest (i + 1)).attempted,
        (runItemsAux fetch n rest (i + 1)).aborted⟩ := by
  simp [runItemsAux, hf, h429]

theorem runItemsAux_noAbort (fetch : Nat → String → Except ApiError String) (n : Nat) :
    ∀ (vars : List String) (i : Nat),
      (∀ j pj, vars.get? j = some pj → notAbortErr (fetch (i + j) pj) = true) →
      (runItemsAux fetch n vars i).assets = successAssets fetch vars i ∧
      (runItemsAux fetch n vars i).attempted = attemptedAll vars i ∧
      (runItemsAux fetch n vars i).aborted = none := by
  intro vars
  induction vars with
  | nil => intro i _; exact ⟨rfl, rfl, rfl⟩
  | cons p rest ih =>
    intro i hyp
    have h0 : notAbortErr (fetch i p) = true := by
      have := hyp 0 p (by simp)
      simpa using this
    have hshift : ∀ j pj, rest.get? j = some pj →
        notAbortErr (fetch (i + 1 + j) pj) = true := by
      intro j pj hg
      have h1 := hyp (j + 1) pj (by simpa using hg)
      have e1 : i + (j + 1) = i + 1 + j := by omega
      rw [e1] at h1
      exact h1
    obtain ⟨ha, hat, hab⟩ := ih (i + 1) hshift
    cases hf : fetch i p with
    | ok url =>
      rw [riOk fetch n p rest i url hf]
      refine ⟨?_, ?_, ?_⟩
      · show GeneratedAsset.mk url p :: (runItemsAux fetch n rest (i + 1)).assets = _
        rw [ha]
        simp [successAssets, hf]
      · show (i, p) :: (runItemsAux fetch n rest (i + 1)).attempted = _
        rw [hat]
        simp [attemptedAll]
      · exact hab
    | error e =>
      have h429 : includes429 e = false := by
        rw [hf] at h0
        simpa [notAbortErr] using h0
      rw [riErrSkip fetch n p rest i e hf h429]
      refine ⟨?_, ?_, ?_⟩
      · show (runItemsAux fetch n rest (i + 1)).assets = _
        rw [ha]
        simp [successAssets, hf]
      · show (i, p) :: (runItemsAux fetch n rest (i + 1)).attempted = _
        rw [hat]
        simp [attemptedAll]
      · exact hab

theorem runItemsAux_abort (fetch : Nat → String → Except ApiError String) (n : Nat) :
    ∀ (vars : List String) (i k : Nat) (pk : String) (e : ApiError),
      vars.get? k = some pk →
      fetch (i + k) pk = .error e →
      includes429 e = true →
      (∀ j pj, j < k → vars.get? j = some pj → notAbortErr (fetch (i + j) pj) = true) →
      (runItemsAux fetch n vars i).aborted = some e ∧
      (runItemsAux fetch n vars i).attempted.length = k + 1 ∧
      (∀ q ∈ (runItemsAux fetch n vars i).attempted, q.1 ≤ i + k) ∧
      (runItemsAux fetch n vars i).assets.length ≤ k := by
  intro vars
  induction vars with
  | nil => intro i k pk e hg; simp at hg
  | cons p rest ih =>
    intro i k pk e hg hfk h429 hprior
    cases k with
    | zero =>
      have hpk : pk = p := by simpa using hg.symm
      have hf : fetch i p = .error e := by
        have := hfk
        rw [hpk] at this
        simpa using this
      rw [riErr429 fetch n p rest i e hf h429]
      refine ⟨rfl, rfl, ?_, by simp⟩
      intro q hq
      have : q = (i, p) := by simpa using hq
      rw [this]
      omega
    | succ k2 =>
      have h0 : notAbortErr (fetch i p) = true := hprior 0 p (by omega) (by simp)
      have hg2 : rest.get? k2 = some pk := by simpa using hg
      have hfk2 : fetch (i + 1 + k2) pk = .error e := by
        have e1 : i + (k2 + 1) = i + 1 + k2 := by omega
        rw [e1] at hfk
        exact hfk
      have hshift : ∀ j pj, j < k2 → rest.get? j = some pj →
          notAbortErr (fetch (i + 1 + j) pj) = true := by
        intro j pj hj hgj
        have h1 := hprior (j + 1) pj (by omega) (by simpa using hgj)
        have e1 : i + (j + 1) = i + 1 + j := by omega
        rw [e1] at h1
        exact h1
      obtain ⟨hab, hal, ham, has⟩ := ih (i + 1) k2 pk e hg2 hfk2 h429 hshift
      cases hf : fetch i p with
      | ok url =>
        rw [riOk fetch n p rest i url hf]
        refine ⟨hab, ?_, ?_, ?_⟩
        · show ((i, p) :: (runItemsAux fetch n rest (i + 1)).attempted).length = k2 + 1 + 1
          simp [hal]
        · intro q hq
          rcases List.mem_cons.mp hq with hq1 | hq2
          · rw [hq1]; omega
          · have := ham q hq2; omega
        · show (GeneratedAsset.mk url p :: (runItemsAux fetch n rest (i + 1)).assets).length
            ≤ k2 + 1
          simp only [List.length_cons]
          omega
      | error e2 =>
        have h4292 : includes429 e2 = false := by
          rw [hf] at h0
          simpa [notAbortErr] using h0
        rw [riErrSkip fetch n p rest i e2 hf h4292]
        refine ⟨hab, ?_, ?_, ?_⟩
        · show ((i, p) :: (runItemsAux fetch n rest (i + 1)).attempted).length = k2 + 1 + 1
          simp [hal]
        · intro q hq
          rcases List.mem_cons.mp hq with hq1 | hq2
          · rw [hq1]; omega
          · have := ham q hq2; omega
        · show (runItemsAux fetch n rest (i + 1)).assets.length ≤ k2 + 1
          omega

theorem runItemsAux_trace_get (fetch : Nat → String → Except ApiError String) (n : Nat) :
    ∀ (vars : List String) (i k : Nat),
      k < (runItemsAux fetch n vars i).trace.length →
      (runItemsAux fetch n vars i).trace.get? k = some (progressAfter (i + 1 + k) n) := by
  intro vars
  induction vars with
  | nil =>
    intro i k h
    rw [riNil] at h
    simp at h
  | cons p rest ih =>
    intro i k h
    cases hf : fetch i p with
    | ok url =>
      rw [riOk fetch n p rest i url hf] at h ⊢
      cases k with
      | zero => simp
      | succ k2 =>
        have h2 : k2 < (runItemsAux fetch n rest (i + 1)).trace.length := by
          simpa using h
        have := ih (i + 1) k2 h2
        have e1 : i + 1 + 1 + k2 = i + 1 + (k2 + 1) := by omega
        rw [e1] at this
        simpa using this
    | error e =>
      cases h429 : includes429 e with
      | true =>
        rw [riErr429 fetch n p rest i e hf h429] at h
        simp at h
      | false =>
        rw [riErrSkip fetch n p rest i e hf h429] at h ⊢
        cases k with
        | zero => simp
        | succ k2 =>
          have h2 : k2 < (runItemsAux fetch n rest (i + 1)).trace.length := by
            simpa using h
          have := ih (i + 1) k2 h2
          have e1 : i + 1 + 1 + k2 = i + 1 + (k2 + 1) := by omega
          rw [e1] at this
          simpa using this

theorem progressAfter_mono (n : Nat) {k k2 : Nat} (h : k ≤ k2) :
    progressAfter k n ≤ progressAfter k2 n := by
  unfold progressAfter
  exact min_le_min (le_refl 100) (Nat.div_le_div_right (by omega))

theorem runItemsAux_trace_pairwise (fetch : Nat → String → Except ApiError String)
    (n : Nat) :
    ∀ (vars : List String) (i : Nat),
      List.Pairwise (· ≤ ·) (runItemsAux fetch n vars i).trace := by
  intro vars
  induction vars with
  | nil => intro i; rw [riNil]; simp
  | cons p rest ih =>
    intro i
    have htail : ∀ b, b ∈ (runItemsAux fetch n rest (i + 1)).trace →
        progressAfter (i + 1) n ≤ b := by
      intro b hb
      obtain ⟨k, hk⟩ := List.mem_iff_get?.mp hb
      have hlen : k < (runItemsAux fetch n rest (i + 1)).trace.length := by
        rcases List.get?_eq_some.mp hk with ⟨hlt, -⟩
        exact hlt
      have := runItemsAux_trace_get fetch n rest (i + 1) k hlen
      rw [hk] at this
      have hb2 : b = progressAfter (i + 1 + 1 + k) n := by
        injection this
      rw [hb2]
      exact progressAfter_mono n (by omega)
    cases hf : fetch i p with
    | ok url =>
      rw [riOk fetch n p rest i url hf]
      show List.Pairwise (· ≤ ·)
        (progressAfter (i + 1) n :: (runItemsAux fetch n rest (i + 1)).trace)
      rw [List.pairwise_cons]
      exact ⟨htail, ih (i + 1)⟩
    | error e =>
      cases h429 : includes429 e with
      | true =>
        rw [riErr429 fetch n p rest i e hf h429]
        simp
      | false =>
        rw [riErrSkip fetch n p rest i e hf h429]
        show List.Pairwise (· ≤ ·)
          (progressAfter (i + 1) n :: (runItemsAux fetch n rest (i + 1)).trace)
        rw [List.pairwise_cons]
        exact ⟨htail, ih (i + 1)⟩

theorem runItemsAux_trace_len (fetch : Nat → String → Except ApiError String) (n : Nat) :
    ∀ (vars : List String) (i t : Nat), t ≤ vars.length →
      (∀ j pj, j < t → vars.get? j = some pj → notAbortErr (fetch (i + j) pj) = true) →
      t ≤ (runItemsAux fetch n vars i).trace.length := by
  intro vars
  induction vars with
  | nil =>
    intro i t ht _
    simp at ht
    omega
  | cons p rest ih =>
    intro i t ht hpr
    cases t with
    | zero => exact Nat.zero_le _
    | succ t2 =>
      have h0 : notAbortErr (fetch i p) = true := hpr 0 p (by omega) (by simp)
      have hshift : ∀ j pj, j < t2 → rest.get? j = some pj →
          notAbortErr (fetch (i + 1 + j) pj) = true := by
        intro j pj hj hgj
        have h1 := hpr (j + 1) pj (by omega) (by simpa using hgj)
        have e1 : i + (j + 1) = i + 1 + j := by omega
        rw [e1] at h1
        exact h1
      have hrec := ih (i + 1) t2 (by simpa using ht) hshift
      cases hf : fetch i p with
      | ok url =>
        rw [riOk fetch n p rest i url hf]
        show t2 + 1 ≤
          (progressAfter (i + 1) n :: (runItemsAux fetch n rest (i + 1)).trace).length
        simp only [List.length_cons]
        omega
      | error e =>
        have h429 : includes429 e = false := by
          rw [hf] at h0
          simpa [notAbortErr] using h0
        rw [riErrSkip fetch n p rest i e hf h429]
        show t2 + 1 ≤
          (progressAfter (i + 1) n :: (runItemsAux fetch n rest (i + 1)).trace).length
        simp only [List.length_cons]
        omega

theorem runItemsAux_assets_facts (fetch : Nat → String → Except ApiError String)
    (n : Nat) :
    ∀ (vars : List String) (i : Nat),
      (runItemsAux fetch n vars i).assets.length ≤ vars.length ∧
      ∀ a ∈ (runItemsAux fetch n vars i).assets, a.prompt ∈ vars := by
  intro vars
  induction vars with
  | nil =>
    intro i
    rw [riNil]
    exact ⟨by simp, by simp⟩
  | cons p rest ih =>
    intro i
    obtain ⟨ihl, ihm⟩ := ih (i + 1)
    cases hf : fetch i p with
    | ok url =>
      rw [riOk fetch n p rest i url hf]
      constructor
      · show (GeneratedAsset.mk url p :: (runItemsAux fetch n rest (i + 1)).assets).length
          ≤ (p :: rest).length
        simp only [List.length_cons]
        omega
      · intro a ha
        rcases List.mem_cons.mp ha with ha1 | ha2
        · rw [ha1]; simp
        · exact List.mem_cons_of_mem p (ihm a ha2)
    | error e =>
      cases h429 : includes429 e with
      | true =>
        rw [riErr429 fetch n p rest i e hf h429]
        exact ⟨by simp, by simp⟩
      | false =>
        rw [riErrSkip fetch n p rest i e hf h429]
        constructor
        · show (runItemsAux fetch n rest (i + 1)).assets.length ≤ (p :: rest).length
          simp only [List.length_cons]
          omega
        · intro a ha
          exact List.mem_cons_of_mem p (ihm a ha)

theorem successAssets_mem (fetch : Nat → String → Except ApiError String) :
    ∀ (vars : List String) (i : Nat) (a : GeneratedAsset),
      a ∈ successAssets fetch vars i →
      ∃ j, vars.get? j = some a.prompt ∧ fetch (i + j) a.prompt = .ok a.url := by
  intro vars
  induction vars with
  | nil => intro i a h; simp [successAssets] at h
  | cons p rest ih =>
    intro i a h
    cases hf : fetch i p with
    | ok url =>
      rw [show successAssets fetch (p :: rest) i =
          GeneratedAsset.mk url p :: successAssets fetch rest (i + 1) from by
        simp [successAssets, hf]] at h
      rcases List.mem_cons.mp h with h1 | h2
      · refine ⟨0, ?_, ?_⟩
        · rw [h1]; simp
        · rw [h1]
          show fetch (i + 0) p = Except.ok url
          simpa using hf
      · obtain ⟨j, hg, hok⟩ := ih (i + 1) a h2
        refine ⟨j + 1, by simpa using hg, ?_⟩
        have e1 : i + (j + 1) = i + 1 + j := by omega
        rw [e1]
        exact hok
    | error e =>
      rw [show successAssets fetch (p :: rest) i = successAssets fetch rest (i + 1) from by
        simp [successAssets, hf]] at h
      obtain ⟨j, hg, hok⟩ := ih (i + 1) a h
      refine ⟨j + 1, by simpa using hg, ?_⟩
      have e1 : i + (j + 1) = i + 1 + j := by omega
      rw [e1]
      exact hok

theorem attemptedAll_length :
    ∀ (vars : List String) (i : Nat), (attemptedAll vars i).length = vars.length := by
  intro vars
  induction vars with
  | nil => intro i; rfl
  | cons p rest ih => intro i; simp [attemptedAll, ih]

theorem attemptedAll_snd :
    ∀ (vars : List String) (i : Nat) (q : Nat × String),
      q ∈ attemptedAll vars i → q.2 ∈ vars := by
  intro vars
  induction vars with
  | nil => intro i q h; simp [attemptedAll] at h
  | cons p rest ih =>
    intro i q h
    rw [show attemptedAll (p :: rest) i = (i, p) :: attemptedAll rest (i + 1) from rfl] at h
    rcases List.mem_cons.mp h with h1 | h2
    · rw [h1]; simp
    · exact List.mem_cons_of_mem p (ih (i + 1) q h2)

theorem lastOfAppend (l : List Nat) (a : Nat) : (l ++ [a]).getLast? = some a := by
  induction l with
  | nil => rfl
  | cons b l2 ih =>
    rw [List.cons_append]
    cases hl : l2 ++ [a] with
    | nil => exact absurd hl (by simp)
    | cons c cs =>
      rw [hl] at ih
      rw [List.getLast?_cons_cons]
      exact ih

theorem handleGenerate_attempted (fetch : Nat → String → Except ApiError String)
    (variations : List String) :
    (handleGenerate fetch variations).attempted =
      (runItemsAux fetch variations.length variations 0).attempted := rfl

theorem handleGenerate_newAssets (fetch : Nat → String → Except ApiError String)
    (variations : List String) :
    (handleGenerate fetch variations).newAssets =
      (runItemsAux fetch variations.length variations 0).assets := rfl

theorem handleGenerate_visible (fetch : Nat → String → Except ApiError String)
    (variations : List String) :
    (handleGenerate fetch variations).visibleAssets =
      (runItemsAux fetch variations.length variations 0).assets.reverse := rfl

theorem handleGenerate_trace (fetch : Nat → String → Except ApiError String)
    (variations : List String) :
    (handleGenerate fetch variations).progressTrace =
      (runItemsAux fetch variations.length variations 0).trace := rfl

theorem handleGenerate_events (fetch : Nat → String → Except ApiError String)
    (variations : List String) :
    (handleGenerate fetch variations).progressEvents =
      0 :: (runItemsAux fetch variations.length variations 0).trace ++ [0] := rfl

theorem handleGenerate_error_of_abort (fetch : Nat → String → Except ApiError String)
    (variations : List String) (e : ApiError)
    (hab : (runItemsAux fetch variations.length variations 0).aborted = some e) :
    (handleGenerate fetch variations).error = some (errorMessage e) := by
  show (match (runItemsAux fetch variations.length variations 0).aborted with
    | some e2 => some (errorMessage e2)
    | none =>
      if (runItemsAux fetch variations.length variations 0).assets.length = 0 then
        some (errorMessage ⟨emptyRunMsg, none⟩)
      else none) = some (errorMessage e)
  rw [hab]

/-! Claim theorems. -/

/-- C1, counterexample: when the structured payload parses to an EMPTY array,
`generatePromptVariations` does not return `count` copies of `basePrompt` as
the claim states: it returns the single-element list `[basePrompt]`, and the
orchestrator consequently attempts exactly one fetch, not `count = 20`. -/
theorem claim_C1_counterexample :
    (generatePromptVariations "p" AssetType.STICKER 20 (.ok [])).length = 1 ∧
    generatePromptVariations "p" AssetType.STICKER 20 (.ok []) ≠
      List.replicate 20 "p" ∧
    (runGeneration fetchOk "p" AssetType.STICKER (.ok [])).attempted.length = 1 := by
  refine ⟨rfl, by decide, rfl⟩

/-- C1, amended: on a parse FAILURE `generatePromptVariations` falls back to
exactly `count` copies of `basePrompt` and (when no fetch raises a
429-message error) the orchestrator then attempts exactly `count` fetches,
all using `basePrompt`; but when parsing SUCCEEDS with an empty sequence the
fallback is the single-element list `[basePrompt]` (one fetch). -/
theorem claim_C1_fallback (basePrompt : String) (t : AssetType) (count : Nat)
    (fetch : Nat → String → Except ApiError String)
    (hok : ∀ j pj,
      (generatePromptVariations basePrompt t count ParseResult.err).get? j = some pj →
      notAbortErr (fetch j pj) = true) :
    generatePromptVariations basePrompt t count .err = List.replicate count basePrompt ∧
    generatePromptVariations basePrompt t count (.ok []) = [basePrompt] ∧
    (handleGenerate fetch
      (generatePromptVariations basePrompt t count .err)).attempted.length = count ∧
    ∀ q ∈ (handleGenerate fetch
      (generatePromptVariations basePrompt t count .err)).attempted,
      q.2 = basePrompt := by
  have hvars : generatePromptVariations basePrompt t count .err =
      List.replicate count basePrompt := rfl
  have hyp : ∀ j pj,
      (generatePromptVariations basePrompt t count ParseResult.err).get? j = some pj →
      notAbortErr (fetch (0 + j) pj) = true := by
    intro j pj hg
    rw [Nat.zero_add]
    exact hok j pj hg
  obtain ⟨-, hat, -⟩ := runItemsAux_noAbort fetch
    (generatePromptVariations basePrompt t count ParseResult.err).length
    (generatePromptVariations basePrompt t count ParseResult.err) 0 hyp
  refine ⟨rfl, rfl, ?_, ?_⟩
  · rw [handleGenerate_attempted, hat, attemptedAll_length, hvars]
    simp
  · intro q hq
    rw [handleGenerate_attempted, hat] at hq
    have h2 := attemptedAll_snd _ 0 q hq
    rw [hvars] at h2
    exact List.eq_of_mem_replicate h2

/-- Witness for C1's amended theorem at `count = 2` with an always-successful
fetch oracle. -/
theorem claim_C1_fallback_witness :
    (handleGenerate fetchOk
      (generatePromptVariations "p" AssetType.STICKER 2 ParseResult.err)).attempted.length
      = 2 :=
  (claim_C1_fallback "p" AssetType.STICKER 2 fetchOk (fun _ _ _ => rfl)).2.2.1

/-- C10: whenever the AI text call succeeds and `count ≥ 1`,
`generatePromptVariations` returns a non-empty list: the parsed array when it
is non-empty, else the single-element fallback `[basePrompt]`, else (on parse
failure) the `count`-element replication of `basePrompt`. -/
theorem claim_C10_nonempty (basePrompt : String) (t : AssetType) (count : Nat)
    (parsed : ParseResult) (hc : 1 ≤ count) :
    0 < (generatePromptVariations basePrompt t count parsed).length ∧
    ((∃ xs, parsed = .ok xs ∧ xs ≠ [] ∧
        generatePromptVariations basePrompt t count parsed = xs) ∨
      generatePromptVariations basePrompt t count parsed = [basePrompt] ∨
      generatePromptVariations basePrompt t count parsed =
        List.replicate count basePrompt) := by
  cases parsed with
  | ok xs =>
    cases xs with
    | nil =>
      refine ⟨by simp [generatePromptVariations], Or.inr (Or.inl ?_)⟩
      simp [generatePromptVariations]
    | cons x xs2 =>
      refine ⟨by simp [generatePromptVariations], Or.inl ⟨x :: xs2, rfl, by simp, ?_⟩⟩
      simp [generatePromptVariations]
  | err =>
    refine ⟨?_, Or.inr (Or.inr rfl)⟩
    have : (generatePromptVariations basePrompt t count ParseResult.err).length
        = count := by simp [generatePromptVariations]
    omega

/-- Witness for C10 at `count = 3` and a parse failure. -/
theorem claim_C10_nonempty_witness :
    0 < (generatePromptVariations "p" AssetType.GIF 3 ParseResult.err).length :=
  (claim_C10_nonempty "p" AssetType.GIF 3 ParseResult.err (by omega)).1

/-- C4: the Background Stripper sets a pixel's alpha to 0 exactly when its
red, green and blue channels are all at least 245, leaves every other pixel
entirely unchanged (a white pixel's alpha becomes 0, a black pixel is
untouched), keeps the thresholded pixel's color channels intact, and on a
decode failure returns the original data URL unchanged; on a successful
decode the output is the PNG encoding of the pixel-wise keying. -/
theorem claim_C4_stripper (px : Pixel) (al : Nat) (url : String)
    (pixels : List Pixel) (decode : String → DecodeResult)
    (encodePng : List Pixel → String) :
    ((245 ≤ px.r ∧ 245 ≤ px.g ∧ 245 ≤ px.b) →
      stripPixel px = ⟨px.r, px.g, px.b, 0⟩) ∧
    (¬ (245 ≤ px.r ∧ 245 ≤ px.g ∧ 245 ≤ px.b) → stripPixel px = px) ∧
    stripPixel ⟨255, 255, 255, al⟩ = ⟨255, 255, 255, 0⟩ ∧
    stripPixel ⟨0, 0, 0, al⟩ = ⟨0, 0, 0, al⟩ ∧
    (decode url = .failed → removeWhiteBackground url decode encodePng = url) ∧
    (decode url = .decoded pixels →
      removeWhiteBackground url decode encodePng =
        encodePng (pixels.map stripPixel)) := by
  refine ⟨?_, ?_, ?_, ?_, ?_, ?_⟩
  · intro h
    simp only [stripPixel, threshold]
    rw [if_pos h]
  · intro h
    simp only [stripPixel, threshold]
    rw [if_neg h]
  · simp [stripPixel, threshold]
  · simp [stripPixel, threshold]
  · intro h
    simp [removeWhiteBackground, h]
  · intro h
    simp [removeWhiteBackground, h]

/-- Witness for C4: a near-white pixel is made transparent, a dark pixel is
untouched, and a decode failure returns the input unchanged. -/
theorem claim_C4_stripper_witness :
    stripPixel ⟨250, 250, 250, 7⟩ = ⟨250, 250, 250, 0⟩ ∧
    stripPixel ⟨10, 20, 30, 7⟩ = ⟨10, 20, 30, 7⟩ ∧
    removeWhiteBackground "x" (fun _ => DecodeResult.failed) (fun _ => "y") = "x" :=
  ⟨(claim_C4_stripper ⟨250, 250, 250, 7⟩ 0 "x" [] (fun _ => DecodeResult.failed)
      (fun _ => "y")).1 (by decide),
    (claim_C4_stripper ⟨10, 20, 30, 7⟩ 0 "x" [] (fun _ => DecodeResult.failed)
      (fun _ => "y")).2.1 (by decide),
    (claim_C4_stripper ⟨10, 20, 30, 7⟩ 0 "x" [] (fun _ => DecodeResult.failed)
      (fun _ => "y")).2.2.2.2.1 rfl⟩

/-- C2, counterexample: an error classified rate-limit by the code's own
classifier (`status = RESOURCE_EXHAUSTED` with no `429` in the message) does
NOT abort the run: the loop's abort test only looks for the substring `429`
in the message, so the next item is still fetched and the run's error is not
the rate-limit message. -/
theorem claim_C2_counterexample :
    isRateLimit errRE = true ∧
    fetchRE 0 "a" = Except.error errRE ∧
    (handleGenerate fetchRE ["a", "b"]).attempted.length = 2 ∧
    (handleGenerate fetchRE ["a", "b"]).error = none := by
  refine ⟨by decide, rfl, by decide, by decide⟩

/-- C2, amended: if the failure at item `k` has a message containing `429`
(the loop's actual abort test), and no earlier item failed that way, then the
orchestrator attempts no fetch after item `k`, appends at most the assets of
the earlier items, and — provided the message does not also contain the
authentication substring — the run's user-visible error is the rate-limit
message. -/
theorem claim_C2_abort (fetch : Nat → String → Except ApiError String)
    (variations : List String) (k : Nat) (pk : String) (e : ApiError)
    (hg : variations.get? k = some pk)
    (hf : fetch k pk = .error e)
    (h429 : includes429 e = true)
    (hauth : includesSubstr e.message "Requested entity was not found" = false)
    (hprior : ∀ j pj, j < k → variations.get? j = some pj →
      notAbortErr (fetch j pj) = true) :
    (handleGenerate fetch variations).attempted.length = k + 1 ∧
    (∀ q ∈ (handleGenerate fetch variations).attempted, q.1 ≤ k) ∧
    (handleGenerate fetch variations).newAssets.length ≤ k ∧
    (handleGenerate fetch variations).error = some rateLimitMsg := by
  have hf0 : fetch (0 + k) pk = .error e := by rw [Nat.zero_add]; exact hf
  have hprior0 : ∀ j pj, j < k → variations.get? j = some pj →
      notAbortErr (fetch (0 + j) pj) = true := by
    intro j pj hj hgj
    rw [Nat.zero_add]
    exact hprior j pj hj hgj
  obtain ⟨hab, hal, ham, has⟩ := runItemsAux_abort fetch variations.length variations
    0 k pk e hg hf0 h429 hprior0
  refine ⟨?_, ?_, ?_, ?_⟩
  · rw [handleGenerate_attempted]
    exact hal
  · intro q hq
    rw [handleGenerate_attempted] at hq
    have := ham q hq
    omega
  · rw [handleGenerate_newAssets]
    exact has
  · rw [handleGenerate_error_of_abort fetch variations e hab]
    have h4 : includesSubstr e.message "429" = true := h429
    simp [errorMessage, hauth, h4]

/-- Witness for C2's amended theorem: a 429-message failure at item 0 of a
two-item run stops the run after one attempted fetch, with the rate-limit
message surfaced. -/
theorem claim_C2_abort_witness :
    (handleGenerate fetch429at0 ["a", "b"]).attempted.length = 0 + 1 ∧
    (handleGenerate fetch429at0 ["a", "b"]).error = some rateLimitMsg :=
  ⟨(claim_C2_abort fetch429at0 ["a", "b"] 0 "a" err429 rfl rfl (by decide) (by decide)
      (fun _ _ hj _ => absurd hj (by omega))).1,
    (claim_C2_abort fetch429at0 ["a", "b"] 0 "a" err429 rfl rfl (by decide) (by decide)
      (fun _ _ hj _ => absurd hj (by omega))).2.2.2⟩

/-- C3: if the failure at item `k` is not classified rate-limit (and no item
of the run fails with a 429-message error, so no abort fires anywhere), the
orchestrator attempts every item of the run, its assets are exactly the
successes in index order, and no asset stems from item `k`. -/
theorem claim_C3_skip (fetch : Nat → String → Except ApiError String)
    (variations : List String) (k : Nat) (pk : String) (e : ApiError)
    (hg : variations.get? k = some pk)
    (hf : fetch k pk = .error e)
    (hrl : isRateLimit e = false)
    (hall : ∀ j pj, variations.get? j = some pj → notAbortErr (fetch j pj) = true) :
    (handleGenerate fetch variations).attempted = attemptedAll variations 0 ∧
    (handleGenerate fetch variations).attempted.length = variations.length ∧
    (handleGenerate fetch variations).newAssets = successAssets fetch variations 0 ∧
    ∀ a ∈ (handleGenerate fetch variations).newAssets,
      ∃ j, variations.get? j = some a.prompt ∧ fetch j a.prompt = .ok a.url ∧ j ≠ k := by
  have hall0 : ∀ j pj, variations.get? j = some pj →
      notAbortErr (fetch (0 + j) pj) = true := by
    intro j pj hgj
    rw [Nat.zero_add]
    exact hall j pj hgj
  obtain ⟨ha, hat, -⟩ := runItemsAux_noAbort fetch variations.length variations 0 hall0
  refine ⟨?_, ?_, ?_, ?_⟩
  · rw [handleGenerate_attempted]
    exact hat
  · rw [handleGenerate_attempted, hat]
    exact attemptedAll_length variations 0
  · rw [handleGenerate_newAssets]
    exact ha
  · intro a hma
    rw [handleGenerate_newAssets, ha] at hma
    obtain ⟨j, hgj, hokj⟩ := successAssets_mem fetch variations 0 a hma
    rw [Nat.zero_add] at hokj
    refine ⟨j, hgj, hokj, ?_⟩
    intro hjk
    rw [hjk] at hgj hokj
    rw [hg] at hgj
    have hpp : a.prompt = pk := by injection hgj.symm
    rw [hpp, hf] at hokj
    exact Except.noConfusion hokj

/-- Witness for C3: a generic failure at item 0 of a two-item run still lets
item 1 be attempted (both items attempted). -/
theorem claim_C3_skip_witness :
    (handleGenerate fetchSkip0 ["a", "b"]).attempted.length = 2 :=
  (claim_C3_skip fetchSkip0 ["a", "b"] 0 "a" errBoom rfl rfl (by decide)
    (fun j _ _ => by cases j with | zero => rfl | succ j2 => rfl)).2.1

/-- C5: within a run over `n` variations, the `k`-th mid-run progress value
(set after processing `k + 1` items, successes and skipped failures alike)
equals `round(100 * (k + 1) / n)` clamped to 100; the mid-run progress values
are monotonically non-decreasing; and the run's progress event sequence
starts and ends with a reset to 0. -/
theorem claim_C5_progress (fetch : Nat → String → Except ApiError String)
    (variations : List String) :
    (∀ k, k < (handleGenerate fetch variations).progressTrace.length →
      (handleGenerate fetch variations).progressTrace.get? k =
        some (progressAfter (k + 1) variations.length)) ∧
    List.Pairwise (· ≤ ·) (handleGenerate fetch variations).progressTrace ∧
    (handleGenerate fetch variations).progressEvents.head? = some 0 ∧
    (handleGenerate fetch variations).progressEvents.getLast? = some 0 := by
  refine ⟨?_, ?_, ?_, ?_⟩
  · intro k hk
    rw [handleGenerate_trace] at hk ⊢
    have := runItemsAux_trace_get fetch variations.length variations 0 k hk
    have e1 : 0 + 1 + k = k + 1 := by omega
    rw [e1] at this
    exact this
  · rw [handleGenerate_trace]
    exact runItemsAux_trace_pairwise fetch variations.length variations 0
  · rw [handleGenerate_events]
    rfl
  · rw [handleGenerate_events]
    rw [show (0 :: (runItemsAux fetch variations.length variations 0).trace ++ [0]) =
      (0 :: (runItemsAux fetch variations.length variations 0).trace) ++ [0] from rfl]
    exact lastOfAppend _ 0

/-- Witness for C5 on a fully successful two-item run: the first progress
value is `round(100 * 1 / 2) = 50` and the event sequence ends at 0. -/
theorem claim_C5_progress_witness :
    (handleGenerate fetchOk ["a", "b"]).progressTrace.get? 0 =
      some (progressAfter 1 2) ∧
    (handleGenerate fetchOk ["a", "b"]).progressEvents.getLast? = some 0 :=
  ⟨(claim_C5_progress fetchOk ["a", "b"]).1 0 (by decide),
    (claim_C5_progress fetchOk ["a", "b"]).2.2.2⟩

/-- C6, counterexample: in a two-item run whose first item fails (skipped)
and whose second succeeds, the progress value set on the successful fetch is
`100 = round(100 * 2 / 2)` (items processed), not
`round(100 * completedCount / totalCount) = round(100 * 1 / 2) = 50`:
progress counts attempted items, not completed assets. -/
theorem claim_C6_counterexample :
    (handleGenerate fetchSkip0 ["a", "b"]).newAssets.length = 1 ∧
    (handleGenerate fetchSkip0 ["a", "b"]).progressTrace = [50, 100] ∧
    progressAfter 1 2 = 50 ∧
    (100 : Nat) ≠ 50 := by
  refine ⟨by decide, by decide, by decide, by decide⟩

/-- C6, amended: on the successful fetch of item `k` (no earlier 429-message
abort), the orchestrator advances the progress to
`round(100 * (k + 1) / totalCount)` clamped to 100, where `k + 1` is the
number of items PROCESSED so far (successes and skipped failures alike), not
the number of completed assets. -/
theorem claim_C6_progress_on_success (fetch : Nat → String → Except ApiError String)
    (variations : List String) (k : Nat) (pk url : String)
    (hg : variations.get? k = some pk)
    (hf : fetch k pk = .ok url)
    (hprior : ∀ j pj, j < k → variations.get? j = some pj →
      notAbortErr (fetch j pj) = true) :
    (handleGenerate fetch variations).progressTrace.get? k =
      some (progressAfter (k + 1) variations.length) := by
  have hklen : k < variations.length := by
    rcases List.get?_eq_some.mp hg with ⟨hlt, -⟩
    exact hlt
  have hcomb : ∀ j pj, j < k + 1 → variations.get? j = some pj →
      notAbortErr (fetch (0 + j) pj) = true := by
    intro j pj hj hgj
    rw [Nat.zero_add]
    rcases Nat.lt_or_ge j k with h1 | h2
    · exact hprior j pj h1 hgj
    · have hjk : j = k := by omega
      subst hjk
      have hpp : pj = pk := by
        rw [hgj] at hg
        injection hg
      rw [hpp, hf]
      rfl
  have hlen := runItemsAux_trace_len fetch variations.length variations 0 (k + 1)
    (by omega) hcomb
  have hget := runItemsAux_trace_get fetch variations.length variations 0 k
    (by omega)
  rw [handleGenerate_trace]
  have e1 : 0 + 1 + k = k + 1 := by omega
  rw [e1] at hget
  exact hget

/-- Witness for C6's amended theorem: after item 0 is skipped, item 1's
success sets progress to `round(100 * 2 / 2) = 100` even though only one
asset completed. -/
theorem claim_C6_progress_on_success_witness :
    (handleGenerate fetchSkip0 ["a", "b"]).progressTrace.get? 1 =
      some (progressAfter 2 2) :=
  claim_C6_progress_on_success fetchSkip0 ["a", "b"] 1 "b" "u" rfl rfl
    (fun j _ hj _ => by
      cases j with
      | zero => rfl
      | succ j2 => exact absurd hj (by omega))

/-- C7, counterexample: when the Variation Expander's parsed payload has 21
entries, the orchestrator fetches all 21 of them (it never truncates to the
requested count of 20), so a successful run can hold more than
`requestedCount` assets. -/
theorem claim_C7_counterexample :
    (runGeneration fetchOk "p" AssetType.STICKER
      (.ok (List.replicate 21 "q"))).newAssets.length = 21 ∧
    (runGeneration fetchOk "p" AssetType.STICKER
      (.ok (List.replicate 21 "q"))).error = none ∧
    ¬ (21 ≤ 20) := by
  refine ⟨by decide, by decide, by decide⟩

/-- C7, amended: a run's completed assets never exceed the LENGTH of the
Variation Expander's output (hence never exceed 20 whenever that output has
at most 20 entries — the code does not truncate an over-long payload), and
every completed asset's source prompt is drawn from that output. -/
theorem claim_C7_bounds (fetch : Nat → String → Except ApiError String)
    (basePrompt : String) (t : AssetType) (parsed : ParseResult) :
    (runGeneration fetch basePrompt t parsed).newAssets.length ≤
      (generatePromptVariations basePrompt t 20 parsed).length ∧
    ((generatePromptVariations basePrompt t 20 parsed).length ≤ 20 →
      (runGeneration fetch basePrompt t parsed).newAssets.length ≤ 20) ∧
    ∀ a ∈ (runGeneration fetch basePrompt t parsed).newAssets,
      a.prompt ∈ generatePromptVariations basePrompt t 20 parsed := by
  obtain ⟨hl, hm⟩ := runItemsAux_assets_facts fetch
    (generatePromptVariations basePrompt t 20 parsed).length
    (generatePromptVariations basePrompt t 20 parsed) 0
  refine ⟨?_, ?_, ?_⟩
  · rw [show (runGeneration fetch basePrompt t parsed).newAssets =
      (runItemsAux fetch (generatePromptVariations basePrompt t 20 parsed).length
        (generatePromptVariations basePrompt t 20 parsed) 0).assets from rfl]
    exact hl
  · intro hb
    rw [show (runGeneration fetch basePrompt t parsed).newAssets =
      (runItemsAux fetch (generatePromptVariations basePrompt t 20 parsed).length
        (generatePromptVariations basePrompt t 20 parsed) 0).assets from rfl]
    omega
  · intro a hma
    rw [show (runGeneration fetch basePrompt t parsed).newAssets =
      (runItemsAux fetch (generatePromptVariations basePrompt t 20 parsed).length
        (generatePromptVariations basePrompt t 20 parsed) 0).assets from rfl] at hma
    exact hm a hma

/-- Witness for C7's amended theorem on a one-variation run: at most one
asset, with its prompt drawn from the expander output. -/
theorem claim_C7_bounds_witness :
    (runGeneration fetchOk "p" AssetType.STICKER (.ok ["q"])).newAssets.length ≤ 20 ∧
    (GeneratedAsset.mk "u" "q").prompt ∈
      generatePromptVariations "p" AssetType.STICKER 20 (.ok ["q"]) :=
  ⟨(claim_C7_bounds fetchOk "p" AssetType.STICKER (.ok ["q"])).2.1 (by decide),
    (claim_C7_bounds fetchOk "p" AssetType.STICKER (.ok ["q"])).2.2
      ⟨"u", "q"⟩ (by decide)⟩

/-- C8, counterexample: in a fully successful two-item run, the run-local
accumulator holds the assets in arrival (prompt) order, but the observable
assets collection prepends each new success, so the caller sees them
newest-first — the reverse of arrival order, contradicting the claimed
arrival-order visibility of the observable collection. -/
theorem claim_C8_counterexample :
    (handleGenerate fetchOk ["a", "b"]).newAssets =
      [⟨"u", "a"⟩, ⟨"u", "b"⟩] ∧
    (handleGenerate fetchOk ["a", "b"]).visibleAssets =
      [⟨"u", "b"⟩, ⟨"u", "a"⟩] ∧
    (handleGenerate fetchOk ["a", "b"]).visibleAssets ≠
      (handleGenerate fetchOk ["a", "b"]).newAssets := by
  refine ⟨by decide, by decide, by decide⟩

/-- C8, amended: assets are surfaced incrementally (never buffered to the
end): in an abort-free run the run accumulator equals the successes in
arrival (= prompt) order, and the observable collection is exactly its
reverse — each new success is prepended, so the caller sees newest-first
order rather than arrival order. -/
theorem claim_C8_order (fetch : Nat → String → Except ApiError String)
    (variations : List String)
    (hall : ∀ j pj, variations.get? j = some pj → notAbortErr (fetch j pj) = true) :
    (handleGenerate fetch variations).newAssets = successAssets fetch variations 0 ∧
    (handleGenerate fetch variations).visibleAssets =
      (successAssets fetch variations 0).reverse := by
  have hall0 : ∀ j pj, variations.get? j = some pj →
      notAbortErr (fetch (0 + j) pj) = true := by
    intro j pj hgj
    rw [Nat.zero_add]
    exact hall j pj hgj
  obtain ⟨ha, -, -⟩ := runItemsAux_noAbort fetch variations.length variations 0 hall0
  constructor
  · rw [handleGenerate_newAssets]
    exact ha
  · rw [handleGenerate_visible, ha]

/-- Witness for C8's amended theorem on a fully successful two-item run. -/
theorem claim_C8_order_witness :
    (handleGenerate fetchOk ["a", "b"]).visibleAssets =
      (successAssets fetchOk ["a", "b"] 0).reverse :=
  (claim_C8_order fetchOk ["a", "b"] (fun _ _ _ => rfl)).2

/-- C9: `withRetry` with the source defaults (`maxAttempts = 5`,
`initialDelayMs = 4000`) invokes the operation at most 5 times; every
re-invocation is preceded by a failure classified rate-limit or
transient-server-error; any other error propagates immediately after a
single invocation with no wait; when all 5 invocations fail retryably the
last error propagates after exactly 5 invocations; and the performed waits
follow the backoff sequence that starts at 4000 and doubles each attempt
plus the drawn jitter. -/
theorem claim_C9_withRetry {α : Type} (fn : Nat → Except ApiError α)
    (jitter : Nat → Nat) :
    (withRetry fn jitter 5 4000).2.1 ≤ 5 ∧
    (∀ k, k + 1 < (withRetry fn jitter 5 4000).2.1 →
      ∃ e, fn k = .error e ∧ (isRateLimit e || isServerError e) = true) ∧
    (∀ e, fn 0 = .error e → (isRateLimit e || isServerError e) = false →
      withRetry fn jitter 5 4000 = (.error e, 1, [])) ∧
    ((∀ k, k < 5 → ∃ e, fn k = .error e ∧ (isRateLimit e || isServerError e) = true) →
      (withRetry fn jitter 5 4000).1 = fn 4 ∧ (withRetry fn jitter 5 4000).2.1 = 5) ∧
    (∀ k, k < (withRetry fn jitter 5 4000).2.2.length →
      (withRetry fn jitter 5 4000).2.2.get? k = some (delaySeq jitter 4000 0 k)) ∧
    delaySeq jitter 4000 0 0 = 4000 ∧
    (∀ k, delaySeq jitter 4000 0 (k + 1) =
      2 * delaySeq jitter 4000 0 k + jitter k) := by
  refine ⟨?_, ?_, ?_, ?_, ?_, rfl, ?_⟩
  · have := wrGo_calls_le fn jitter 5 0 4000 (by omega)
    simpa using this
  · intro k hk
    exact wrGo_retry_reason fn jitter 5 0 4000 k (Nat.zero_le k) hk
  · intro e hf hcl
    have hb : ((isRateLimit e || isServerError e) && ((4 : Nat) != 0)) = false := by
      simp [hcl]
    exact wrGo_err_stop fn jitter 4 0 4000 e hf hb
  · intro hall
    have := wrGo_exhaust fn jitter 5 0 4000 (by omega)
      (fun k hk1 hk2 => hall k (by omega))
    exact this
  · intro k hk
    exact wrGo_waits fn jitter 5 0 4000 k hk
  · intro k
    show 2 * delaySeq jitter 4000 0 k + jitter (0 + k) =
      2 * delaySeq jitter 4000 0 k + jitter k
    rw [Nat.zero_add]

/-- Witness for C9: a non-retryable error propagates after one invocation
with no wait, and a persistent 429 error exhausts all 5 invocations. -/
theorem claim_C9_withRetry_witness :
    withRetry fnBoomW jitter0W 5 4000 = (Except.error errBoom, 1, []) ∧
    (withRetry fn429W jitter0W 5 4000).2.1 = 5 :=
  ⟨(claim_C9_withRetry fnBoomW jitter0W).2.2.1 errBoom rfl (by decide),
    ((claim_C9_withRetry fn429W jitter0W).2.2.2.1
      (fun _ _ => ⟨err429, rfl, by decide⟩)).2⟩

end CanvasGen
